import Mathlib

/-!
Verification of the reboot-coordination controller (Flatcar Linux Update
Operator).  The operator's reconciler (`pkg/operator`, file `part_002`) and the
node-update helpers (`pkg/k8sutil/metadata.go`) are shallowly embedded below:
Go `map[string]string` fields become optional association lists (a `none` map
is Go's nil map: reads and deletes are safe, assignment panics), the cluster is
a list of nodes, and every phase of the reconciliation tick is a function from
the cluster state to an error option paired with the successor state.
-/

namespace Fluo

/-- Modelled from the spec: `pkg/constants` is not under `src/`; the spec's §6
annotation vocabulary supplies the names.  Only distinctness of the keys and
the literal values `"true"`/`"false"` matter to the claims. -/
def AnnotationRebootNeeded : String := "reboot-needed"

/-- Modelled from the spec: agent-owned key, reboot underway. -/
def AnnotationRebootInProgress : String := "reboot-in-progress"

/-- Modelled from the spec: operator-owned key, hold the node out. -/
def AnnotationRebootPaused : String := "reboot-paused"

/-- Modelled from the spec: controller-owned key, permission / completion flip. -/
def AnnotationOkToReboot : String := "ok-to-reboot"

/-- Modelled from the spec: controller-owned label for the pre-reboot phase. -/
def LabelBeforeReboot : String := "before-reboot"

/-- Modelled from the spec: controller-owned label for the post-reboot phase. -/
def LabelAfterReboot : String := "after-reboot"

/-- `constants.True`. -/
def strTrue : String := "true"

/-- `constants.False`. -/
def strFalse : String := "false"

/-- A Go `map[string]string`, as an association list (unique keys are kept by
construction of the operations below; lookups take the first match). -/
abbrev SMap := List (String × String)

/-- Remove every binding of key `k` (Go `delete(m, k)` on a non-nil map). -/
def smapErase (m : SMap) (k : String) : SMap :=
  m.filter (fun p => !(p.1 == k))

/-- Go `m[k] = v` on a non-nil map. -/
def smapInsert (m : SMap) (k v : String) : SMap :=
  (k, v) :: smapErase m k

/-- A possibly-nil Go map: `none` is the nil map. -/
abbrev GoMap := Option SMap

/-- Read `m[k]` with presence information; on a nil map the read is legal and
misses. -/
def mapLookup (m : GoMap) (k : String) : Option String :=
  m.bind (fun l => List.lookup k l)

/-- Go `delete(m, k)`: legal (a no-op) on the nil map. -/
def mapDelete (m : GoMap) (k : String) : GoMap :=
  m.map (fun l => smapErase l k)

/-- A node object (`corev1.Node`) restricted to the fields the reconciler
reads or writes: name, the two string maps and the schedulability flag. -/
structure Node where
  name : String
  labels : GoMap
  annots : GoMap
  unschedulable : Bool
deriving DecidableEq

/-- A Go runtime panic raised by a mutator (assignment into a nil map). -/
inductive GoPanic where
  | nilMapAssign
deriving DecidableEq

/-- Errors surfacing from a node update in the embedding. -/
inductive Err where
  | api
  | notFound
  | panicNilMap
deriving DecidableEq

deriving instance DecidableEq for Except

/-- `fields.Set(node.Annotations).Get k`: the zero value `""` on a miss, also
on the nil map. -/
def annGetD (n : Node) (k : String) : String :=
  (mapLookup n.annots k).getD ""

/-- `rebootableSelector` (part_002 lines 63-66): field selector
`reboot-needed==true, reboot-paused!=true, ok-to-reboot!=true,
reboot-in-progress!=true` evaluated over the node's annotation map. -/
def rebootableSelector (n : Node) : Bool :=
  annGetD n AnnotationRebootNeeded == strTrue &&
  !(annGetD n AnnotationRebootPaused == strTrue) &&
  !(annGetD n AnnotationOkToReboot == strTrue) &&
  !(annGetD n AnnotationRebootInProgress == strTrue)

/-- `justRebootedSelector` (part_002 lines 51-55): `ok-to-reboot==true,
reboot-needed==false, reboot-in-progress==false`. -/
def justRebootedSelector (n : Node) : Bool :=
  annGetD n AnnotationOkToReboot == strTrue &&
  annGetD n AnnotationRebootNeeded == strFalse &&
  annGetD n AnnotationRebootInProgress == strFalse

/-- `stillRebootingSelector` (part_002 lines 70-73): `ok-to-reboot==true,
reboot-needed==true`. -/
def stillRebootingSelector (n : Node) : Bool :=
  annGetD n AnnotationOkToReboot == strTrue &&
  annGetD n AnnotationRebootNeeded == strTrue

/-- Label read, presence-aware (`labels.Set` keeps absent ≠ present-empty). -/
def labLookup (n : Node) (k : String) : Option String :=
  mapLookup n.labels k

/-- `beforeRebootReq`: label `before-reboot` In {"true"} (absent fails). -/
def beforeRebootReq (n : Node) : Bool :=
  labLookup n LabelBeforeReboot == some strTrue

/-- `afterRebootReq`: label `after-reboot` In {"true"}. -/
def afterRebootReq (n : Node) : Bool :=
  labLookup n LabelAfterReboot == some strTrue

/-- `notBeforeRebootReq`: label `before-reboot` NotIn {"true"} (absent passes). -/
def notBeforeRebootReq (n : Node) : Bool :=
  !(labLookup n LabelBeforeReboot == some strTrue)

/-- `notAfterRebootReq`: label `after-reboot` NotIn {"true"}. -/
def notAfterRebootReq (n : Node) : Bool :=
  !(labLookup n LabelAfterReboot == some strTrue)

/-- Modelled from the spec: `k8sutil.FilterNodesByRequirement` and
`FilterNodesByAnnotation` (the `pkg/k8sutil` filter helpers are not under
`src/`); per §4.2 of the spec they are pure filters of the node list by a
label requirement, respectively an annotation field selector. -/
def filterNodes (p : Node → Bool) (c : List Node) : List Node :=
  c.filter p

/-- `hasAllAnnotations` (part_002 lines 557-568): every listed key is present
in the node's annotation map with value exactly `constants.True`. -/
def hasAllAnnotations (n : Node) (anns : List String) : Bool :=
  anns.all (fun a => mapLookup n.annots a == some strTrue)

/-- The mutator `checkReboot` passes to `UpdateNodeRetry` (part_002 lines
386-396): delete the phase label, delete every listed hook key, then assign
`ok-to-reboot`.  The final assignment panics on a nil annotation map. -/
def checkRebootMutator (anns : List String) (label okToReboot : String)
    (node : Node) : Except GoPanic Node :=
  let node := { node with labels := mapDelete node.labels label }
  let node := { node with annots := anns.foldl mapDelete node.annots }
  match node.annots with
  | none => .error .nilMapAssign
  | some m => .ok { node with annots := some (smapInsert m AnnotationOkToReboot okToReboot) }

/-- The mutator `mark` passes to `UpdateNodeRetry` (part_002 lines 540-545):
delete every listed hook key, then assign the label to `"true"`.  The
assignment panics on a nil label map. -/
def markMutator (anns : List String) (label : String)
    (node : Node) : Except GoPanic Node :=
  let node := { node with annots := anns.foldl mapDelete node.annots }
  match node.labels with
  | none => .error .nilMapAssign
  | some m => .ok { node with labels := some (smapInsert m label strTrue) }

/-- The pure effect of `cleanupState`'s mutator (part_002 lines 337-350): when
the `before-reboot` label key exists (with any value) and the node no longer
matches `rebootableSelector`, drop the label and the configured before-reboot
hook keys; otherwise leave the node alone. -/
def cleanNode (beforeAnns : List String) (node : Node) : Node :=
  if (mapLookup node.labels LabelBeforeReboot).isSome then
    if rebootableSelector node then node
    else
      { node with labels := mapDelete node.labels LabelBeforeReboot,
                  annots := beforeAnns.foldl mapDelete node.annots }
  else node

/-- `cleanupState`'s mutator only reads and deletes, which is legal on nil Go
maps, so it cannot panic. -/
def cleanupMutator (beforeAnns : List String) (node : Node) : Except GoPanic Node :=
  .ok (cleanNode beforeAnns node)

/-- Injected cluster-API faults: names whose update submission fails. -/
structure Env where
  updateFail : List String
deriving DecidableEq

/-- The `Get`-then-mutate-then-`Update` step of `UpdateNodeRetry`
(metadata.go lines 59-78) against the cluster list: find the node by name,
apply the mutator and write the result back. -/
def applyToNode (name : String) (f : Node → Except GoPanic Node) :
    List Node → Except Err (List Node)
  | [] => .error .notFound
  | n :: rest =>
    if n.name == name then
      match f n with
      | .error _ => .error .panicNilMap
      | .ok n' => .ok (n' :: rest)
    else
      match applyToNode name f rest with
      | .error e => .error e
      | .ok rest' => .ok (n :: rest')

/-- `k8sutil.UpdateNodeRetry` as seen by the single-writer reconciler: version
conflicts are retried internally and are invisible here; an injected API fault
surfaces as an error. -/
def updateNodeRetryM (env : Env) (name : String) (f : Node → Except GoPanic Node)
    (c : List Node) : Except Err (List Node) :=
  if name ∈ env.updateFail then .error .api else applyToNode name f c

/-- The per-node update loop shared by the phases: update the named nodes from
left to right, returning early (with the state reached so far) on the first
error, as each phase's `for` loop does. -/
def runUpdates (env : Env) (f : Node → Except GoPanic Node) :
    List String → List Node → Option Err × List Node
  | [], c => (none, c)
  | name :: rest, c =>
    match updateNodeRetryM env name f c with
    | .error e => (some e, c)
    | .ok c' => runUpdates env f rest c'

/-- The controller configuration the reconciler reads: the two hook sets and
the optional reboot window.  The window is carried as the pair
`(previousStart, length)` of `rebootWindow.Previous(now)` — modelled from the
spec, `timeutil.Periodic` being an external dependency. -/
structure Kontroller where
  beforeRebootAnnotations : List String
  afterRebootAnnotations : List String
  rebootWindow : Option (Int × Int)
deriving DecidableEq

/-- `maxRebootingNodes` (part_002 line 33). -/
def maxRebootingNodes : Nat := 1

/-- `cleanupState` (part_002 lines 330-357): run the cleanup mutator over
every listed node, aborting on the first update error. -/
def cleanupState (env : Env) (k : Kontroller) (c : List Node) :
    Option Err × List Node :=
  runUpdates env (cleanupMutator k.beforeRebootAnnotations) (c.map Node.name) c

/-- `checkReboot` (part_002 lines 370-402): among the nodes matching the label
requirement, those whose listed hook keys are all `"true"` get the composed
mutator in one conflict-retried update each. -/
def checkReboot (env : Env) (req : Node → Bool) (anns : List String)
    (label okToReboot : String) (c : List Node) : Option Err × List Node :=
  let eligible := (filterNodes req c).filter (fun n => hasAllAnnotations n anns)
  runUpdates env (checkRebootMutator anns label okToReboot) (eligible.map Node.name) c

/-- `checkBeforeReboot` (part_002 lines 412-414). -/
def checkBeforeReboot (env : Env) (k : Kontroller) (c : List Node) :
    Option Err × List Node :=
  checkReboot env beforeRebootReq k.beforeRebootAnnotations LabelBeforeReboot strTrue c

/-- `checkAfterReboot` (part_002 lines 422-424).  NB: the source passes
`k.beforeRebootAnnotations` here, not `k.afterRebootAnnotations`. -/
def checkAfterReboot (env : Env) (k : Kontroller) (c : List Node) :
    Option Err × List Node :=
  checkReboot env afterRebootReq k.beforeRebootAnnotations LabelAfterReboot strFalse c

/-- `markAfterReboot` (part_002 lines 512-534): label every just-rebooted node
not yet carrying `after-reboot=true`, clearing the after-reboot hook keys in
the same update. -/
def markAfterReboot (env : Env) (k : Kontroller) (c : List Node) :
    Option Err × List Node :=
  let justRebooted := filterNodes notAfterRebootReq (filterNodes justRebootedSelector c)
  runUpdates env (markMutator k.afterRebootAnnotations LabelAfterReboot)
    (justRebooted.map Node.name) c

/-- The reboot-window guard of `markBeforeReboot` (part_002 lines 443-452):
with no window configured the guard passes; otherwise it passes exactly when
`period.End = previousStart + length` is after `now`.  Modelled from the
spec: `timeutil.Periodic.Previous` (locksmith) returns the last occurrence,
whose start is `≤ now`. -/
def insideGuard (rebootWindow : Option (Int × Int)) (now : Int) : Bool :=
  match rebootWindow with
  | none => true
  | some (s, len) => now < s + len

/-- The in-flight node list of `markBeforeReboot` (part_002 lines 455-460):
the concatenation of the still-rebooting, before-reboot and after-reboot
filter results. -/
def inFlightList (c : List Node) : List Node :=
  filterNodes stillRebootingSelector c ++
    filterNodes beforeRebootReq c ++ filterNodes afterRebootReq c

/-- The nodes `markBeforeReboot` chooses (part_002 lines 473-489): rebootable,
not already labeled, truncated to the remaining budget. -/
def chosenNodes (c : List Node) : List Node :=
  (filterNodes notBeforeRebootReq (filterNodes rebootableSelector c)).take
    (maxRebootingNodes - (inFlightList c).length)

/-- `markBeforeReboot` (part_002 lines 436-502): window guard, budget check,
then mark each chosen node. -/
def markBeforeReboot (env : Env) (k : Kontroller) (now : Int) (c : List Node) :
    Option Err × List Node :=
  if !(insideGuard k.rebootWindow now) then (none, c)
  else if maxRebootingNodes ≤ (inFlightList c).length then (none, c)
  else if (filterNodes notBeforeRebootReq (filterNodes rebootableSelector c)).length = 0 then
    (none, c)
  else
    runUpdates env (markMutator k.beforeRebootAnnotations LabelBeforeReboot)
      ((chosenNodes c).map Node.name) c

/-- One reconciliation phase: an error option and the successor cluster. -/
abbrev Phase := List Node → Option Err × List Node

/-- Sequence phases, stopping at the first error (each `if err := ...; return`
in `process`). -/
def runPhases : List Phase → List Node → Option Err × List Node
  | [], c => (none, c)
  | p :: ps, c =>
    match p c with
    | (some e, c') => (some e, c')
    | (none, c') => runPhases ps c'

/-- The five phases of a tick in source order (part_002 lines 267-324). -/
def tickPhases (env : Env) (k : Kontroller) (now : Int) : List Phase :=
  [cleanupState env k, checkAfterReboot env k, markAfterReboot env k,
   checkBeforeReboot env k, markBeforeReboot env k now]

/-- `process` (part_002 lines 267-324): run the phases, log-and-swallow the
first error, and hand the reached state to the next tick. -/
def process (env : Env) (k : Kontroller) (now : Int) (c : List Node) : List Node :=
  (runPhases (tickPhases env k now) c).2

/-- `retry.DefaultBackoff` allows this many attempts. -/
def retrySteps : Nat := 4

/-- The environment of one conflict-retried update: the first `conflicts`
`Update` submissions hit a version conflict, and `fetched i` is the node state
the cluster holds (and a `Get` returns) at attempt `i`. -/
structure RetryEnv where
  conflicts : Nat
  fetched : Nat → Node

/-- `retry.RetryOnConflict`: run the closure up to `fuel` times, stopping at
the first attempt that does not report a conflict; `submit i` is the object
handed to `Update` at attempt `i`, and the trace of submitted objects is
returned. -/
def retryLoop (conflicts : Nat) (submit : Nat → Node) : Nat → Nat → List Node
  | 0, _ => []
  | fuel + 1, i =>
    if i < conflicts then submit i :: retryLoop conflicts submit fuel (i + 1)
    else [submit i]

/-- The submission trace of `UpdateNodeRetry` (metadata.go lines 59-78): the
`Get` sits inside the retried closure, so attempt `i` mutates `fetched i`. -/
def updateNodeRetrySubmissions (renv : RetryEnv) (f : Node → Node) : List Node :=
  retryLoop renv.conflicts (fun i => f (renv.fetched i)) retrySteps 0

/-- `n.Spec.Unschedulable = sched`. -/
def setUnschedulable (sched : Bool) (n : Node) : Node :=
  { n with unschedulable := sched }

/-- The submission trace of `Unschedulable` (metadata.go lines 133-150): the
`Get` happens once, before `RetryOnConflict`; only the `Update` call is inside
the loop, so every attempt re-submits the object fetched at attempt 0.  (On a
conflict the code reassigns `n` from `Update`'s return; we model that value as
the submitted object — under any reading it is not a fresh fetch.) -/
def unschedulableSubmissions (renv : RetryEnv) (sched : Bool) : List Node :=
  retryLoop renv.conflicts (fun _ => setUnschedulable sched (renv.fetched 0)) retrySteps 0

/-- A node is in flight in the sense of invariant I1: Pre-gating, Authorized,
Rebooting or Post-gating. -/
def inFlightP (n : Node) : Bool :=
  stillRebootingSelector n || beforeRebootReq n || afterRebootReq n

/-- The spec's §4.6 in-flight measure, stated as written there: the number of
nodes on which at least one of the three conditions holds (the cardinality of
the union of the three sets). -/
def inFlightUnionCount (c : List Node) : Nat :=
  (c.filter inFlightP).length

/-! ### Map lemmas -/

theorem lookup_smapErase_self (m : SMap) (k : String) :
    List.lookup k (smapErase m k) = none := by
  induction m with
  | nil => rfl
  | cons p rest ih =>
    by_cases hp : p.1 = k
    · simpa [smapErase, hp] using ih
    · have hk : (k == p.1) = false := beq_eq_false_iff_ne.mpr (fun hc => hp hc.symm)
      have hp' : (p.1 == k) = false := beq_eq_false_iff_ne.mpr hp
      simp only [smapErase, List.filter, hp', Bool.not_false, List.lookup, hk]
      exact ih

theorem lookup_smapErase_ne (m : SMap) (k k' : String) (h : k' ≠ k) :
    List.lookup k' (smapErase m k) = List.lookup k' m := by
  induction m with
  | nil => rfl
  | cons p rest ih =>
    by_cases hp : p.1 = k
    · have hk : (k' == p.1) = false := beq_eq_false_iff_ne.mpr (fun hc => h (hc.trans hp))
      have hp' : (p.1 == k) = true := by simp [hp]
      simp only [smapErase, List.filter, hp', Bool.not_true, List.lookup, hk]
      exact ih
    · have hp' : (p.1 == k) = false := beq_eq_false_iff_ne.mpr hp
      simp only [smapErase, List.filter, hp', Bool.not_false, List.lookup]
      by_cases hk : k' == p.1
      · simp [List.lookup, hk]
      · simp only [List.lookup, hk]
        exact ih

theorem lookup_smapInsert_self (m : SMap) (k v : String) :
    List.lookup k (smapInsert m k v) = some v := by
  simp [smapInsert, List.lookup]

theorem lookup_smapInsert_ne (m : SMap) (k k' v : String) (h : k' ≠ k) :
    List.lookup k' (smapInsert m k v) = List.lookup k' m := by
  have hk : (k' == k) = false := by simpa using h
  simp only [smapInsert, List.lookup, hk]
  exact lookup_smapErase_ne m k k' h

theorem mapLookup_mapDelete_self (m : GoMap) (k : String) :
    mapLookup (mapDelete m k) k = none := by
  cases m with
  | none => rfl
  | some l => simpa [mapLookup, mapDelete] using lookup_smapErase_self l k

theorem mapLookup_mapDelete_ne (m : GoMap) (k k' : String) (h : k' ≠ k) :
    mapLookup (mapDelete m k) k' = mapLookup m k' := by
  cases m with
  | none => rfl
  | some l => simpa [mapLookup, mapDelete] using lookup_smapErase_ne l k k' h

/-- A fold of deletions can only lose bindings: a lookup afterwards is `none`
or whatever it was before. -/
theorem mapLookup_foldl_mapDelete_or (anns : List String) (m : GoMap) (a : String) :
    mapLookup (anns.foldl mapDelete m) a = none ∨
      mapLookup (anns.foldl mapDelete m) a = mapLookup m a := by
  induction anns generalizing m with
  | nil => exact Or.inr rfl
  | cons b rest ih =>
    simp only [List.foldl]
    rcases ih (mapDelete m b) with h | h
    · exact Or.inl h
    · by_cases hb : a = b
      · subst hb
        rw [h, mapLookup_mapDelete_self]
        exact Or.inl rfl
      · rw [h, mapLookup_mapDelete_ne m b a hb]
        exact Or.inr rfl

/-- Deleting every listed key really removes each of them. -/
theorem mapLookup_foldl_mapDelete_mem (anns : List String) (m : GoMap) (a : String)
    (ha : a ∈ anns) : mapLookup (anns.foldl mapDelete m) a = none := by
  induction anns generalizing m with
  | nil => cases ha
  | cons b rest ih =>
    simp only [List.foldl]
    rcases List.mem_cons.mp ha with hb | hb
    · subst hb
      rcases mapLookup_foldl_mapDelete_or rest (mapDelete m a) a with h | h
      · exact h
      · rw [h, mapLookup_mapDelete_self]
    · exact ih (mapDelete m b) hb

/-- Deleting keys keeps the map nil exactly when it was nil. -/
theorem foldl_mapDelete_none_iff (anns : List String) (m : GoMap) :
    anns.foldl mapDelete m = none ↔ m = none := by
  induction anns generalizing m with
  | nil => exact Iff.rfl
  | cons b rest ih =>
    simp only [List.foldl]
    rw [ih (mapDelete m b)]
    cases m <;> simp [mapDelete]

/-- The `fields.Set` read (zero value on a miss) agrees with `"true"` exactly
when the key is present with value `"true"`. -/
theorem getD_beq_true_iff (o : Option String) :
    ((o.getD "" == strTrue) = true) ↔ o = some strTrue := by
  cases o with
  | none => decide
  | some s => simp [strTrue]

theorem getD_beq_true_eq_false_iff (o : Option String) :
    ((o.getD "" == strTrue) = false) ↔ o ≠ some strTrue := by
  rw [← Bool.not_eq_true, not_iff_not]
  exact getD_beq_true_iff o

/-! ### Claim theorems -/

/-- C8: `rebootableSelector` holds on a node exactly when the `reboot-needed`
annotation key has the literal value `"true"` and none of `ok-to-reboot`,
`reboot-in-progress`, `reboot-paused` has the value `"true"` — a key that is
absent, or bound to any other value (including `"false"` or `"True"`), counts
as not true. -/
theorem rebootableSelector_iff (n : Node) :
    rebootableSelector n = true ↔
      (mapLookup n.annots AnnotationRebootNeeded = some strTrue ∧
       mapLookup n.annots AnnotationOkToReboot ≠ some strTrue ∧
       mapLookup n.annots AnnotationRebootInProgress ≠ some strTrue ∧
       mapLookup n.annots AnnotationRebootPaused ≠ some strTrue) := by
  simp only [rebootableSelector, annGetD, Bool.and_eq_true, Bool.not_eq_true',
    getD_beq_true_iff, getD_beq_true_eq_false_iff]
  tauto

/-- C9: `hasAllAnnotations` holds exactly when every listed key is present in
the node's annotation map with value exactly the literal string `"true"`; any
other value or absence refutes it, and the empty list is vacuously satisfied. -/
theorem hasAllAnnotations_iff (n : Node) (anns : List String) :
    (hasAllAnnotations n anns = true ↔
      ∀ a ∈ anns, mapLookup n.annots a = some strTrue) ∧
    hasAllAnnotations n [] = true := by
  constructor
  · simp [hasAllAnnotations]
  · rfl

/-- C10 (amended): the mutator `mark` hands to the conflict-retried update
panics exactly on a nil label map, and `checkReboot`'s mutator panics exactly
on a nil annotation map — both assign into the map without a nil check — but
`cleanupState`'s mutator only reads and deletes, which is nil-safe in Go, so
it never panics. -/
theorem mutators_nil_map_panic (anns : List String) (label v : String) (n : Node) :
    (markMutator anns label n = .error .nilMapAssign ↔ n.labels = none) ∧
    (checkRebootMutator anns label v n = .error .nilMapAssign ↔ n.annots = none) ∧
    cleanupMutator anns n = .ok (cleanNode anns n) := by
  refine ⟨?_, ?_, rfl⟩
  · cases hl : n.labels with
    | none => simp [markMutator, hl]
    | some ml => simp [markMutator, hl]
  · cases ha : anns.foldl mapDelete n.annots with
    | none =>
      have hn := (foldl_mapDelete_none_iff anns n.annots).mp ha
      have hfold : anns.foldl mapDelete (none : GoMap) = none :=
        (foldl_mapDelete_none_iff anns none).mpr rfl
      simp [checkRebootMutator, hn, hfold]
    | some ma =>
      have : n.annots ≠ none := by
        intro hnone
        rw [(foldl_mapDelete_none_iff anns n.annots).mpr hnone] at ha
        cases ha
      simp [checkRebootMutator, ha, this]

/-- C10 counterexample: on a node in the pre-reboot phase whose annotation map
is nil (and which no longer wants a reboot), `cleanupState`'s mutator returns
normally — it deletes the label and is a no-op on the nil annotation map —
rather than panicking as the claim asserts for all three mutators. -/
theorem cleanupMutator_no_panic_on_nil :
    cleanupMutator ["hook-before"]
        ⟨"n0", some [(LabelBeforeReboot, strTrue)], none, false⟩ =
      .ok ⟨"n0", some [], none, false⟩ := by
  decide

/-- C1: the operation closing the post-reboot phase gates on — and deletes —
the *before*-reboot hook annotation set (part_002 line 423 passes
`k.beforeRebootAnnotations`), contradicting its own doc comment and the spec:
a node carrying `after-reboot=true` whose after-reboot hooks are all `"true"`
is left untouched because the before-reboot hook is missing. -/
theorem checkAfterReboot_gates_on_before_hooks :
    checkAfterReboot ⟨[]⟩ ⟨["hook-before"], ["hook-after"], none⟩
        [⟨"n1", some [(LabelAfterReboot, strTrue)],
          some [("hook-after", strTrue), (AnnotationOkToReboot, strTrue)], false⟩] =
      (none, [⟨"n1", some [(LabelAfterReboot, strTrue)],
          some [("hook-after", strTrue), (AnnotationOkToReboot, strTrue)], false⟩]) ∧
    afterRebootReq ⟨"n1", some [(LabelAfterReboot, strTrue)],
        some [("hook-after", strTrue), (AnnotationOkToReboot, strTrue)], false⟩ = true ∧
    hasAllAnnotations ⟨"n1", some [(LabelAfterReboot, strTrue)],
        some [("hook-after", strTrue), (AnnotationOkToReboot, strTrue)], false⟩
      ["hook-after"] = true := by
  refine ⟨by decide, by decide, by decide⟩

/-- The object submitted at attempt `i` of a retry loop is `submit` of the
attempt index, shifted by the starting index. -/
theorem retryLoop_getElem (conflicts : Nat) (submit : Nat → Node) (fuel start i : Nat)
    (h : i < (retryLoop conflicts submit fuel start).length) :
    (retryLoop conflicts submit fuel start)[i]? = some (submit (start + i)) := by
  induction fuel generalizing start i with
  | zero => simp [retryLoop] at h
  | succ fuel ih =>
    by_cases hc : start < conflicts
    · simp only [retryLoop, hc, if_true] at h ⊢
      cases i with
      | zero => simp
      | succ j =>
        simp only [List.getElem?_cons_succ]
        have hj : j < (retryLoop conflicts submit fuel (start + 1)).length := by
          simpa using h
        rw [ih (start + 1) j hj]
        have : start + 1 + j = start + (j + 1) := by omega
        rw [this]
    · simp only [retryLoop, hc, if_false] at h ⊢
      have hi : i = 0 := by
        simp only [List.length_cons, List.length_nil] at h
        omega
      subst hi
      simp

/-- C3 (amended): `UpdateNodeRetry` re-fetches the node inside the retried
closure, so the object submitted at every attempt is the mutator applied to
the node fetched at that attempt; `Unschedulable`, by contrast, fetches the
node once before entering `RetryOnConflict` and re-submits the mutation of
that single attempt-0 fetch on every conflict retry — the node version IS
cached across the read-modify-write boundary. -/
theorem updateNodeRetry_refetches_unschedulable_caches (renv : RetryEnv)
    (f : Node → Node) (sched : Bool) (i : Nat)
    (hi : i < (updateNodeRetrySubmissions renv f).length)
    (hj : i < (unschedulableSubmissions renv sched).length) :
    (updateNodeRetrySubmissions renv f)[i]? = some (f (renv.fetched i)) ∧
    (unschedulableSubmissions renv sched)[i]? =
      some (setUnschedulable sched (renv.fetched 0)) := by
  constructor
  · simpa using retryLoop_getElem renv.conflicts (fun j => f (renv.fetched j)) retrySteps 0 i hi
  · simpa using
      retryLoop_getElem renv.conflicts (fun _ => setUnschedulable sched (renv.fetched 0))
        retrySteps 0 i hj

/-- Witness for the amended C3 theorem at a concrete retry environment with
one conflict: attempt 1 of `UpdateNodeRetry` submits the mutation of the
freshly fetched node, and attempt 1 of `Unschedulable` submits the mutation of
the stale attempt-0 fetch. -/
theorem updateNodeRetry_refetches_unschedulable_caches_witness :
    (updateNodeRetrySubmissions ⟨1, fun i => if i = 0 then ⟨"x", some [], some [], false⟩
        else ⟨"x", some [], some [(AnnotationRebootNeeded, strTrue)], false⟩⟩
        (setUnschedulable true))[1]? =
      some (setUnschedulable true ⟨"x", some [], some [(AnnotationRebootNeeded, strTrue)], false⟩) ∧
    (unschedulableSubmissions ⟨1, fun i => if i = 0 then ⟨"x", some [], some [], false⟩
        else ⟨"x", some [], some [(AnnotationRebootNeeded, strTrue)], false⟩⟩ true)[1]? =
      some (setUnschedulable true ⟨"x", some [], some [], false⟩) := by
  have h := updateNodeRetry_refetches_unschedulable_caches
    ⟨1, fun i => if i = 0 then ⟨"x", some [], some [], false⟩
        else ⟨"x", some [], some [(AnnotationRebootNeeded, strTrue)], false⟩⟩
    (setUnschedulable true) true 1 (by decide) (by decide)
  exact h

/-- C3 counterexample: with one conflict and a cluster whose node changed
between the two fetches, `Unschedulable`'s retry submission is not the
mutation of the freshly fetched object — refuting the claim that it follows
`UpdateNode`'s re-fetch-per-attempt discipline. -/
theorem unschedulable_stale_retry_counterexample :
    (unschedulableSubmissions ⟨1, fun i => if i = 0 then ⟨"x", some [], some [], false⟩
        else ⟨"x", some [], some [(AnnotationRebootNeeded, strTrue)], false⟩⟩ true)[1]? ≠
      some (setUnschedulable true
        ((fun i => if i = 0 then (⟨"x", some [], some [], false⟩ : Node)
          else ⟨"x", some [], some [(AnnotationRebootNeeded, strTrue)], false⟩) 1)) := by
  decide

/-- C6: when no reboot window is configured the guard passes unconditionally,
and when one is configured, a tick whose clock is outside
`[previousStart, previousStart + length)` leaves the whole cluster unchanged —
no node is labeled `before-reboot=true`.  (`timeutil.Periodic.Previous` is an
external dependency; the spec's contract makes `previousStart ≤ now`.) -/
theorem markBeforeReboot_window_guard (env : Env) (k : Kontroller) (now : Int)
    (c : List Node) :
    insideGuard none now = true ∧
    (∀ s len : Int, k.rebootWindow = some (s, len) → s ≤ now →
      ¬(s ≤ now ∧ now < s + len) →
      markBeforeReboot env k now c = (none, c)) := by
  refine ⟨rfl, ?_⟩
  intro s len hw hs hno
  have hlt : ¬(now < s + len) := fun hl => hno ⟨hs, hl⟩
  have hg : insideGuard k.rebootWindow now = false := by
    simp [insideGuard, hw, hlt]
  simp [markBeforeReboot, hg]

/-- Witness for the C6 theorem: a configured window `[0, 10)` at clock 15
leaves a rebootable node unlabeled and the cluster untouched. -/
theorem markBeforeReboot_window_guard_witness :
    insideGuard none 15 = true ∧
    markBeforeReboot ⟨[]⟩ ⟨[], [], some (0, 10)⟩ 15
        [⟨"r", some [], some [(AnnotationRebootNeeded, strTrue)], false⟩] =
      (none, [⟨"r", some [], some [(AnnotationRebootNeeded, strTrue)], false⟩]) := by
  refine ⟨(markBeforeReboot_window_guard ⟨[]⟩ ⟨[], [], some (0, 10)⟩ 15
    [⟨"r", some [], some [(AnnotationRebootNeeded, strTrue)], false⟩]).1, ?_⟩
  exact (markBeforeReboot_window_guard ⟨[]⟩ ⟨[], [], some (0, 10)⟩ 15
    [⟨"r", some [], some [(AnnotationRebootNeeded, strTrue)], false⟩]).2 0 10 rfl
    (by decide) (by decide)

/-- Sequencing phases distributes over append, stopping at the first error. -/
theorem runPhases_append (ps qs : List Phase) (c : List Node) :
    runPhases (ps ++ qs) c =
      match runPhases ps c with
      | (some e, c') => (some e, c')
      | (none, c') => runPhases qs c' := by
  induction ps generalizing c with
  | nil => simp [runPhases]
  | cons p ps ih =>
    simp only [List.cons_append, runPhases]
    cases hp : p c with
    | mk e c' =>
      cases e with
      | none => exact ih c'
      | some err => rfl

/-- The per-node update loop distributes over append the same way. -/
theorem runUpdates_append (env : Env) (f : Node → Except GoPanic Node)
    (ns₁ ns₂ : List String) (c : List Node) :
    runUpdates env f (ns₁ ++ ns₂) c =
      match runUpdates env f ns₁ c with
      | (some e, c') => (some e, c')
      | (none, c') => runUpdates env f ns₂ c' := by
  induction ns₁ generalizing c with
  | nil => simp [runUpdates]
  | cons nm rest ih =>
    simp only [List.cons_append, runUpdates]
    cases hr : updateNodeRetryM env nm f c with
    | error e => rfl
    | ok c' => exact ih c'

/-- C7: a tick is the in-order run of the five phases with the first error
aborting it — whatever phases would follow the failing one are not applied and
the result state is exactly the state the failing phase reached — the loop
then resumes on the next tick because `process` swallows the error instead of
propagating it; and inside a phase's per-node loop, the first failing node
update makes the phase return early with the state reached so far, leaving
the remaining listed nodes untouched. -/
theorem process_error_propagation (env : Env) (k : Kontroller) (now : Int)
    (c : List Node) :
    (process env k now c = (runPhases (tickPhases env k now) c).2 ∧
     tickPhases env k now =
       [cleanupState env k, checkAfterReboot env k, markAfterReboot env k,
        checkBeforeReboot env k, markBeforeReboot env k now]) ∧
    (∀ (ps qs : List Phase) (p : Phase) (c₀ c' : List Node) (e : Err),
       (runPhases ps c₀).1 = none → p (runPhases ps c₀).2 = (some e, c') →
       runPhases (ps ++ p :: qs) c₀ = (some e, c')) ∧
    (∀ (f : Node → Except GoPanic Node) (ns₁ ns₂ : List String) (nm : String)
       (c₀ : List Node) (e : Err),
       (runUpdates env f ns₁ c₀).1 = none →
       updateNodeRetryM env nm f (runUpdates env f ns₁ c₀).2 = .error e →
       runUpdates env f (ns₁ ++ nm :: ns₂) c₀ = (some e, (runUpdates env f ns₁ c₀).2)) := by
  refine ⟨⟨rfl, rfl⟩, ?_, ?_⟩
  · intro ps qs p c₀ c' e h1 h2
    rw [runPhases_append]
    have hps : runPhases ps c₀ = (none, (runPhases ps c₀).2) := by
      cases hr : runPhases ps c₀ with
      | mk e₁ c₁ => rw [hr] at h1; cases h1; rfl
    rw [hps]
    simp only [runPhases]
    have h2' : p ((none, (runPhases ps c₀).2) : Option Err × List Node).2 = (some e, c') := h2
    rw [h2']
  · intro f ns₁ ns₂ nm c₀ e h1 h2
    rw [runUpdates_append]
    have hps : runUpdates env f ns₁ c₀ = (none, (runUpdates env f ns₁ c₀).2) := by
      cases hr : runUpdates env f ns₁ c₀ with
      | mk e₁ c₁ => rw [hr] at h1; cases h1; rfl
    rw [hps]
    simp only [runUpdates]
    rw [show updateNodeRetryM env nm f
          ((none, (runUpdates env f ns₁ c₀).2) : Option Err × List Node).2 = .error e from h2]

/-- Witness for the C7 theorem: a just-rebooted node with a nil label map
makes `markAfterReboot` (Phase C) fail; with Phases A and B having succeeded,
the tick stops there — Phases D and E are not applied — and separately, a
per-node API fault on the second of two listed nodes stops a phase's loop
after the first node. -/
theorem process_error_propagation_witness :
    runPhases
        ([cleanupState ⟨[]⟩ ⟨[], [], none⟩, checkAfterReboot ⟨[]⟩ ⟨[], [], none⟩] ++
          markAfterReboot ⟨[]⟩ ⟨[], [], none⟩ ::
            [checkBeforeReboot ⟨[]⟩ ⟨[], [], none⟩, markBeforeReboot ⟨[]⟩ ⟨[], [], none⟩ 0])
        [⟨"n7", none, some [(AnnotationOkToReboot, strTrue),
            (AnnotationRebootNeeded, strFalse), (AnnotationRebootInProgress, strFalse)], false⟩] =
      (some .panicNilMap,
        [⟨"n7", none, some [(AnnotationOkToReboot, strTrue),
            (AnnotationRebootNeeded, strFalse), (AnnotationRebootInProgress, strFalse)], false⟩]) ∧
    runUpdates ⟨["b"]⟩ (cleanupMutator []) (["a"] ++ "b" :: ["c"])
        [⟨"a", some [], some [], false⟩, ⟨"b", some [], some [], false⟩,
         ⟨"c", some [], some [], false⟩] =
      (some .api, [⟨"a", some [], some [], false⟩, ⟨"b", some [], some [], false⟩,
         ⟨"c", some [], some [], false⟩]) := by
  constructor
  · exact (process_error_propagation ⟨[]⟩ ⟨[], [], none⟩ 0 []).2.1
      [cleanupState ⟨[]⟩ ⟨[], [], none⟩, checkAfterReboot ⟨[]⟩ ⟨[], [], none⟩]
      [checkBeforeReboot ⟨[]⟩ ⟨[], [], none⟩, markBeforeReboot ⟨[]⟩ ⟨[], [], none⟩ 0]
      (markAfterReboot ⟨[]⟩ ⟨[], [], none⟩)
      [⟨"n7", none, some [(AnnotationOkToReboot, strTrue),
          (AnnotationRebootNeeded, strFalse), (AnnotationRebootInProgress, strFalse)], false⟩]
      [⟨"n7", none, some [(AnnotationOkToReboot, strTrue),
          (AnnotationRebootNeeded, strFalse), (AnnotationRebootInProgress, strFalse)], false⟩]
      .panicNilMap (by decide) (by decide)
  · exact (process_error_propagation ⟨["b"]⟩ ⟨[], [], none⟩ 0 []).2.2
      (cleanupMutator []) ["a"] ["c"] "b"
      [⟨"a", some [], some [], false⟩, ⟨"b", some [], some [], false⟩,
       ⟨"c", some [], some [], false⟩]
      .api (by decide) (by decide)

/-- C4: both phase-closing (`checkReboot`) and phase-opening (`mark`) mutate a
node through a single composed mutator handed to one conflict-retried update —
one atomic submission per eligible node — and in the submitted object the
phase-label change, the deletion of every hook annotation key and the
`ok-to-reboot` (resp. new-label) write are all realized together.  The
`ok-to-reboot` write lands after the hook deletions: even when the
`ok-to-reboot` key itself is listed among the hooks, the submitted object
carries it with the new value. -/
theorem checkReboot_mark_single_update (env : Env) (req : Node → Bool)
    (anns : List String) (label v : String) (c : List Node) (n : Node) (m : SMap) :
    (checkReboot env req anns label v c =
       runUpdates env (checkRebootMutator anns label v)
         (((filterNodes req c).filter (fun x => hasAllAnnotations x anns)).map Node.name) c) ∧
    (n.annots = some m →
       ∃ n', checkRebootMutator anns label v n = .ok n' ∧
         mapLookup n'.labels label = none ∧
         (∀ a ∈ anns, a ≠ AnnotationOkToReboot → mapLookup n'.annots a = none) ∧
         mapLookup n'.annots AnnotationOkToReboot = some v ∧
         n'.name = n.name) ∧
    (∀ ml : SMap, n.labels = some ml →
       ∃ n', markMutator anns label n = .ok n' ∧
         (∀ a ∈ anns, mapLookup n'.annots a = none) ∧
         mapLookup n'.labels label = some strTrue ∧
         n'.name = n.name) := by
  refine ⟨rfl, ?_, ?_⟩
  · intro hm
    have hne : anns.foldl mapDelete n.annots ≠ none := by
      intro h
      rw [foldl_mapDelete_none_iff] at h
      rw [hm] at h
      cases h
    cases ha : anns.foldl mapDelete n.annots with
    | none => exact absurd ha hne
    | some ma =>
      refine ⟨⟨n.name, mapDelete n.labels label,
        some (smapInsert ma AnnotationOkToReboot v), n.unschedulable⟩,
        by simp [checkRebootMutator, ha], ?_, ?_, ?_, rfl⟩
      · exact mapLookup_mapDelete_self n.labels label
      · intro a haa hane
        have h1 : List.lookup a (smapInsert ma AnnotationOkToReboot v) = List.lookup a ma :=
          lookup_smapInsert_ne ma AnnotationOkToReboot a v hane
        have h2 : mapLookup (some ma) a = none := by
          rw [← ha]
          exact mapLookup_foldl_mapDelete_mem anns n.annots a haa
        simpa [mapLookup, h1] using h2
      · simpa [mapLookup] using lookup_smapInsert_self ma AnnotationOkToReboot v
  · intro ml hl
    refine ⟨⟨n.name, some (smapInsert ml label strTrue),
      anns.foldl mapDelete n.annots, n.unschedulable⟩,
      by simp [markMutator, hl], ?_, ?_, rfl⟩
    · intro a haa
      exact mapLookup_foldl_mapDelete_mem anns n.annots a haa
    · simpa [mapLookup] using lookup_smapInsert_self ml label strTrue

/-- Witness for the C4 theorem: a concrete post-gating node with the
`ok-to-reboot` key deliberately listed among the hooks still ends up with
label gone, hooks gone and `ok-to-reboot = "false"` in the one submitted
object. -/
theorem checkReboot_mark_single_update_witness :
    (∃ n', checkRebootMutator ["hook", AnnotationOkToReboot] LabelAfterReboot strFalse
        ⟨"w4", some [(LabelAfterReboot, strTrue)],
          some [("hook", strTrue), (AnnotationOkToReboot, strTrue)], false⟩ = .ok n' ∧
       mapLookup n'.labels LabelAfterReboot = none ∧
       (∀ a ∈ ["hook", AnnotationOkToReboot], a ≠ AnnotationOkToReboot →
         mapLookup n'.annots a = none) ∧
       mapLookup n'.annots AnnotationOkToReboot = some strFalse ∧
       n'.name = "w4") ∧
    (∃ n', markMutator ["hook"] LabelBeforeReboot
        ⟨"w5", some [], some [("hook", strTrue)], false⟩ = .ok n' ∧
       (∀ a ∈ ["hook"], mapLookup n'.annots a = none) ∧
       mapLookup n'.labels LabelBeforeReboot = some strTrue ∧
       n'.name = "w5") := by
  constructor
  · exact (checkReboot_mark_single_update ⟨[]⟩ afterRebootReq
      ["hook", AnnotationOkToReboot] LabelAfterReboot strFalse []
      ⟨"w4", some [(LabelAfterReboot, strTrue)],
        some [("hook", strTrue), (AnnotationOkToReboot, strTrue)], false⟩
      [("hook", strTrue), (AnnotationOkToReboot, strTrue)]).2.1 rfl
  · exact (checkReboot_mark_single_update ⟨[]⟩ beforeRebootReq
      ["hook"] LabelBeforeReboot strTrue []
      ⟨"w5", some [], some [("hook", strTrue)], false⟩ []).2.2 [] rfl

/-- The cleanup effect keeps the node's name. -/
theorem cleanNode_name (b : List String) (n : Node) : (cleanNode b n).name = n.name := by
  rw [cleanNode]
  split
  · split <;> rfl
  · rfl

/-- Updating by a name that is not the head's name passes the head through. -/
theorem applyToNode_cons_ne (nm : String) (f : Node → Except GoPanic Node)
    (h : Node) (t : List Node) (hne : h.name ≠ nm) :
    applyToNode nm f (h :: t) =
      match applyToNode nm f t with
      | .error e => .error e
      | .ok t' => .ok (h :: t') := by
  have hb : (h.name == nm) = false := beq_eq_false_iff_ne.mpr hne
  simp only [applyToNode, hb, Bool.false_eq_true, if_false]

/-- A run of updates none of whose names is the head's name leaves the head in
place and acts on the tail. -/
theorem runUpdates_cons_ne (env : Env) (f : Node → Except GoPanic Node)
    (names : List String) (h : Node) (t : List Node)
    (hh : ∀ nm ∈ names, nm ≠ h.name) :
    runUpdates env f names (h :: t) =
      ((runUpdates env f names t).1, h :: (runUpdates env f names t).2) := by
  induction names generalizing t with
  | nil => rfl
  | cons nm rest ih =>
    have hnm : nm ≠ h.name := hh nm (List.mem_cons_self nm rest)
    have hrest : ∀ x ∈ rest, x ≠ h.name := fun x hx => hh x (List.mem_cons_of_mem nm hx)
    simp only [runUpdates, updateNodeRetryM]
    by_cases hfail : nm ∈ env.updateFail
    · simp [hfail]
    · simp only [hfail, if_false]
      rw [applyToNode_cons_ne nm f h t (fun hc => hnm hc.symm)]
      cases hr : applyToNode nm f t with
      | error e => rfl
      | ok t' => exact ih t' hrest

/-- With no injected faults, a total name-preserving mutator applied along the
cluster's own (duplicate-free) name list is exactly a map over the cluster. -/
theorem runUpdates_self_names_map (env : Env) (g : Node → Node)
    (hg : ∀ n, (g n).name = n.name) (hf : env.updateFail = []) (c : List Node)
    (hnd : (c.map Node.name).Nodup) :
    runUpdates env (fun n => .ok (g n)) (c.map Node.name) c = (none, c.map g) := by
  induction c with
  | nil => rfl
  | cons h t ih =>
    have hnd' : (t.map Node.name).Nodup := (List.nodup_cons.mp hnd).2
    have hmem : h.name ∉ t.map Node.name := (List.nodup_cons.mp hnd).1
    have step1 : updateNodeRetryM env h.name (fun n => .ok (g n)) (h :: t) =
        .ok (g h :: t) := by
      simp [updateNodeRetryM, hf, applyToNode]
    simp only [List.map_cons, runUpdates, step1]
    rw [runUpdates_cons_ne env (fun n => .ok (g n)) (t.map Node.name) (g h) t
      (by rw [hg h]; exact fun nm hx hc => hmem (hc ▸ hx))]
    rw [ih hnd']

/-- C5 (amended): with unique node names and no API faults, Phase A is a per-
node map: a node whose label map contains the `before-reboot` key (with any
value, matching the code's existence check) and which no longer satisfies the
rebootable predicate loses that label and every configured before-reboot hook
key; every other node is passed through unchanged. -/
theorem cleanupState_restores_consistency (env : Env) (k : Kontroller)
    (c : List Node) (hnd : (c.map Node.name).Nodup) (hf : env.updateFail = []) :
    cleanupState env k c = (none, c.map (cleanNode k.beforeRebootAnnotations)) ∧
    (∀ n : Node, (mapLookup n.labels LabelBeforeReboot).isSome = false ∨
        rebootableSelector n = true →
      cleanNode k.beforeRebootAnnotations n = n) ∧
    (∀ n : Node, (mapLookup n.labels LabelBeforeReboot).isSome = true →
        rebootableSelector n = false →
      mapLookup (cleanNode k.beforeRebootAnnotations n).labels LabelBeforeReboot = none ∧
      ∀ a ∈ k.beforeRebootAnnotations,
        mapLookup (cleanNode k.beforeRebootAnnotations n).annots a = none) := by
  refine ⟨?_, ?_, ?_⟩
  · exact runUpdates_self_names_map env (cleanNode k.beforeRebootAnnotations)
      (cleanNode_name k.beforeRebootAnnotations) hf c hnd
  · intro n hn
    rcases hn with hn | hn
    · simp [cleanNode, hn]
    · rw [cleanNode]
      split
      · simp [hn]
      · rfl
  · intro n hsome hreb
    have hcn : cleanNode k.beforeRebootAnnotations n =
        { n with labels := mapDelete n.labels LabelBeforeReboot,
                 annots := k.beforeRebootAnnotations.foldl mapDelete n.annots } := by
      rw [cleanNode]
      split
      · simp [hreb]
      · simp_all
    rw [hcn]
    exact ⟨mapLookup_mapDelete_self n.labels LabelBeforeReboot,
      fun a ha => mapLookup_foldl_mapDelete_mem k.beforeRebootAnnotations n.annots a ha⟩

/-- Witness for the C5 theorem: one stale pre-gating node (label present, no
longer rebootable) is scrubbed and one idle node is untouched, in a single
pass over a two-node cluster. -/
theorem cleanupState_restores_consistency_witness :
    cleanupState ⟨[]⟩ ⟨["hb"], [], none⟩
        [⟨"s", some [(LabelBeforeReboot, strTrue)], some [("hb", strTrue)], false⟩,
         ⟨"i", some [], some [], false⟩] =
      (none,
        [cleanNode ["hb"] ⟨"s", some [(LabelBeforeReboot, strTrue)], some [("hb", strTrue)], false⟩,
         cleanNode ["hb"] ⟨"i", some [], some [], false⟩]) ∧
    cleanNode ["hb"] ⟨"i", some [], some [], false⟩ = ⟨"i", some [], some [], false⟩ := by
  constructor
  · exact (cleanupState_restores_consistency ⟨[]⟩ ⟨["hb"], [], none⟩
      [⟨"s", some [(LabelBeforeReboot, strTrue)], some [("hb", strTrue)], false⟩,
       ⟨"i", some [], some [], false⟩] (by decide) rfl).1
  · exact (cleanupState_restores_consistency ⟨[]⟩ ⟨["hb"], [], none⟩
      [⟨"s", some [(LabelBeforeReboot, strTrue)], some [("hb", strTrue)], false⟩,
       ⟨"i", some [], some [], false⟩] (by decide) rfl).2.1
      ⟨"i", some [], some [], false⟩ (Or.inl (by decide))

/-- C5 counterexample: a node whose `before-reboot` label has the value
`"false"` — thus not a node "carrying label before-reboot=true" — is
nonetheless mutated by Phase A (the code keys on existence of the label, not
on its value), refuting the claim that every such node is left unchanged. -/
theorem cleanupState_touches_false_label :
    (cleanupState ⟨[]⟩ ⟨["hb"], [], none⟩
        [⟨"f", some [(LabelBeforeReboot, strFalse)], some [], false⟩]).2 ≠
      [⟨"f", some [(LabelBeforeReboot, strFalse)], some [], false⟩] ∧
    beforeRebootReq ⟨"f", some [(LabelBeforeReboot, strFalse)], some [], false⟩ = false := by
  refine ⟨by decide, by decide⟩

/-- A node is not in flight exactly when all three conditions fail. -/
theorem inFlightP_eq_false_iff (n : Node) :
    inFlightP n = false ↔
      stillRebootingSelector n = false ∧ beforeRebootReq n = false ∧
        afterRebootReq n = false := by
  simp [inFlightP]
  tauto

/-- The union cardinality vanishes exactly when no node is in flight. -/
theorem inFlightUnionCount_eq_zero_iff (c : List Node) :
    inFlightUnionCount c = 0 ↔ ∀ n ∈ c, inFlightP n = false := by
  rw [inFlightUnionCount, List.length_eq_zero, List.filter_eq_nil_iff]
  simp

/-- The code's in-flight measure (concatenation length) vanishes under the
same condition. -/
theorem inFlightList_length_zero_iff (c : List Node) :
    (inFlightList c).length = 0 ↔ ∀ n ∈ c, inFlightP n = false := by
  simp only [inFlightList, filterNodes, List.length_append]
  constructor
  · intro h n hn
    have h1 : (c.filter stillRebootingSelector).length = 0 := by omega
    have h2 : (c.filter beforeRebootReq).length = 0 := by omega
    have h3 : (c.filter afterRebootReq).length = 0 := by omega
    rw [List.length_eq_zero, List.filter_eq_nil_iff] at h1 h2 h3
    rw [inFlightP_eq_false_iff]
    refine ⟨?_, ?_, ?_⟩
    · simpa using h1 n hn
    · simpa using h2 n hn
    · simpa using h3 n hn
  · intro h
    have h1 : c.filter stillRebootingSelector = [] := by
      rw [List.filter_eq_nil_iff]
      intro n hn
      simp [((inFlightP_eq_false_iff n).mp (h n hn)).1]
    have h2 : c.filter beforeRebootReq = [] := by
      rw [List.filter_eq_nil_iff]
      intro n hn
      simp [((inFlightP_eq_false_iff n).mp (h n hn)).2.1]
    have h3 : c.filter afterRebootReq = [] := by
      rw [List.filter_eq_nil_iff]
      intro n hn
      simp [((inFlightP_eq_false_iff n).mp (h n hn)).2.2]
    simp [h1, h2, h3]

/-- A successful by-name update replaces exactly one node of the cluster and
leaves every other entry untouched. -/
theorem applyToNode_ok_decomp (nm : String) (f : Node → Except GoPanic Node)
    (c c' : List Node) (h : applyToNode nm f c = .ok c') :
    ∃ pre n n' post, c = pre ++ n :: post ∧ c' = pre ++ n' :: post ∧ f n = .ok n' := by
  induction c generalizing c' with
  | nil => cases h
  | cons a t ih =>
    by_cases ha : a.name == nm
    · simp only [applyToNode, ha, if_true] at h
      cases hf : f a with
      | error e => rw [hf] at h; cases h
      | ok n' =>
        rw [hf] at h
        cases h
        exact ⟨[], a, n', t, rfl, rfl, hf⟩
    · simp only [applyToNode, ha] at h
      cases happ : applyToNode nm f t with
      | error e => rw [happ] at h; cases h
      | ok t' =>
        rw [happ] at h
        cases h
        obtain ⟨pre, n, n', post, hc, hc', hfn⟩ := ih t' happ
        exact ⟨a :: pre, n, n', post, by rw [hc]; rfl, by rw [hc']; rfl, hfn⟩

/-- The union cardinality of a one-node replacement is bounded by the
surroundings plus one. -/
theorem inFlightUnionCount_replace (pre post : List Node) (n' : Node) :
    inFlightUnionCount (pre ++ n' :: post) ≤
      inFlightUnionCount pre + 1 + inFlightUnionCount post := by
  simp only [inFlightUnionCount, List.filter_append, List.length_append, List.filter_cons]
  by_cases hn : inFlightP n'
  · simp only [hn, if_true, List.length_cons]
    omega
  · simp [hn]

/-- C2 (amended): Phase E's in-flight count is the length of the concatenation
of the three filtered lists; with `maxRebootingNodes = 1` it vanishes exactly
when the spec's union does, so the gate is equivalent: when the count reaches
the bound the phase changes nothing, otherwise at most
`maxRebootingNodes − inFlight` nodes — all rebootable and not already labeled
`before-reboot=true` — are chosen for labeling, and the phase preserves the
bounded-concurrency invariant I1. -/
theorem markBeforeReboot_preserves_I1 (env : Env) (k : Kontroller) (now : Int)
    (c : List Node) (hI1 : inFlightUnionCount c ≤ maxRebootingNodes) :
    ((inFlightList c).length = 0 ↔ inFlightUnionCount c = 0) ∧
    (maxRebootingNodes ≤ (inFlightList c).length →
      markBeforeReboot env k now c = (none, c)) ∧
    ((chosenNodes c).length ≤ maxRebootingNodes - (inFlightList c).length ∧
      ∀ n ∈ chosenNodes c, rebootableSelector n = true ∧ notBeforeRebootReq n = true) ∧
    inFlightUnionCount (markBeforeReboot env k now c).2 ≤ maxRebootingNodes := by
  have hequiv : (inFlightList c).length = 0 ↔ inFlightUnionCount c = 0 :=
    (inFlightList_length_zero_iff c).trans (inFlightUnionCount_eq_zero_iff c).symm
  have hchosen : (chosenNodes c).length ≤ maxRebootingNodes - (inFlightList c).length := by
    rw [chosenNodes, List.length_take]
    exact min_le_left _ _
  have hmem : ∀ n ∈ chosenNodes c, rebootableSelector n = true ∧ notBeforeRebootReq n = true := by
    intro n hn
    have hn' : n ∈ filterNodes notBeforeRebootReq (filterNodes rebootableSelector c) :=
      List.mem_of_mem_take hn
    rw [filterNodes, List.mem_filter] at hn'
    have hn'' := hn'.1
    rw [filterNodes, List.mem_filter] at hn''
    exact ⟨hn''.2, hn'.2⟩
  have hstop : maxRebootingNodes ≤ (inFlightList c).length →
      markBeforeReboot env k now c = (none, c) := by
    intro hlen
    rw [markBeforeReboot]
    cases hg : insideGuard k.rebootWindow now with
    | false => rfl
    | true => simp [hlen]
  refine ⟨hequiv, hstop, ⟨hchosen, hmem⟩, ?_⟩
  by_cases hlen : maxRebootingNodes ≤ (inFlightList c).length
  · rw [hstop hlen]
    exact hI1
  · have hlen0 : (inFlightList c).length = 0 := by
      rw [maxRebootingNodes] at hlen
      omega
    have hall : ∀ n ∈ c, inFlightP n = false :=
      (inFlightList_length_zero_iff c).mp hlen0
    have hzero : inFlightUnionCount c = 0 := (inFlightUnionCount_eq_zero_iff c).mpr hall
    cases hg : insideGuard k.rebootWindow now with
    | false =>
      rw [markBeforeReboot, hg]
      simp [hzero]
    | true =>
      rw [markBeforeReboot, hg]
      simp only [Bool.not_true, Bool.false_eq_true, if_false]
      rw [if_neg hlen]
      by_cases hreb :
          (filterNodes notBeforeRebootReq (filterNodes rebootableSelector c)).length = 0
      · rw [if_pos hreb]
        simp [hzero]
      · rw [if_neg hreb]
        have hone : (chosenNodes c).length ≤ 1 := by
          rw [maxRebootingNodes] at hchosen
          omega
        cases hch : chosenNodes c with
        | nil =>
          simp only [hch, List.map_nil, runUpdates]
          simp [hzero]
        | cons x xs =>
          have hxs : xs = [] := by
            rw [hch] at hone
            simp only [List.length_cons] at hone
            exact List.length_eq_zero.mp (by omega)
          subst hxs
          simp only [hch, List.map_cons, List.map_nil, runUpdates, updateNodeRetryM]
          by_cases hfail : x.name ∈ env.updateFail
          · simp [hfail, hzero]
          · simp only [hfail, if_false]
            cases happ : applyToNode x.name
                (markMutator k.beforeRebootAnnotations LabelBeforeReboot) c with
            | error e => simp [hzero]
            | ok c' =>
              simp only [runUpdates]
              obtain ⟨pre, nmid, n', post, hc, hc', hfn⟩ :=
                applyToNode_ok_decomp x.name _ c c' happ
              have hpre : inFlightUnionCount pre = 0 := by
                rw [inFlightUnionCount_eq_zero_iff]
                intro y hy
                exact hall y (by rw [hc]; exact List.mem_append_left _ hy)
              have hpost : inFlightUnionCount post = 0 := by
                rw [inFlightUnionCount_eq_zero_iff]
                intro y hy
                exact hall y
                  (by rw [hc]; exact List.mem_append_right _ (List.mem_cons_of_mem _ hy))
              have hbound := inFlightUnionCount_replace pre post n'
              rw [maxRebootingNodes]
              rw [hc']
              omega

/-- Witness for the amended C2 theorem on a one-node cluster with a single
rebootable node: the invariant bound holds after the phase, the gate
equivalence holds, and the chosen set is within budget. -/
theorem markBeforeReboot_preserves_I1_witness :
    inFlightUnionCount [⟨"r", some [], some [(AnnotationRebootNeeded, strTrue)], false⟩] ≤
      maxRebootingNodes ∧
    inFlightUnionCount
        (markBeforeReboot ⟨[]⟩ ⟨[], [], none⟩ 0
          [⟨"r", some [], some [(AnnotationRebootNeeded, strTrue)], false⟩]).2 ≤
      maxRebootingNodes := by
  refine ⟨by decide, ?_⟩
  exact (markBeforeReboot_preserves_I1 ⟨[]⟩ ⟨[], [], none⟩ 0
    [⟨"r", some [], some [(AnnotationRebootNeeded, strTrue)], false⟩] (by decide)).2.2.2

/-- C2 counterexample: (1) a node that is simultaneously still-rebooting and
labeled `before-reboot=true` is counted twice by the code's concatenation, so
the in-flight count is 2 while the cardinality of the union is 1 — the count
is not the union cardinality; (2) a full tick does not preserve I1 in general:
from a two-node cluster of just-rebooted nodes satisfying I1 (union count 0),
Phase C labels both with `after-reboot=true` and the tick ends with union
count 2 > 1. -/
theorem inFlight_not_union_counterexample :
    (inFlightList
        [⟨"d", some [(LabelBeforeReboot, strTrue)],
          some [(AnnotationOkToReboot, strTrue), (AnnotationRebootNeeded, strTrue)],
          false⟩]).length = 2 ∧
    inFlightUnionCount
        [⟨"d", some [(LabelBeforeReboot, strTrue)],
          some [(AnnotationOkToReboot, strTrue), (AnnotationRebootNeeded, strTrue)],
          false⟩] = 1 ∧
    inFlightUnionCount
        [⟨"a", some [], some [(AnnotationOkToReboot, strTrue),
            (AnnotationRebootNeeded, strFalse), (AnnotationRebootInProgress, strFalse)], false⟩,
         ⟨"b", some [], some [(AnnotationOkToReboot, strTrue),
            (AnnotationRebootNeeded, strFalse), (AnnotationRebootInProgress, strFalse)], false⟩] = 0 ∧
    inFlightUnionCount
        (process ⟨[]⟩ ⟨[], [], none⟩ 0
          [⟨"a", some [], some [(AnnotationOkToReboot, strTrue),
              (AnnotationRebootNeeded, strFalse), (AnnotationRebootInProgress, strFalse)], false⟩,
           ⟨"b", some [], some [(AnnotationOkToReboot, strTrue),
              (AnnotationRebootNeeded, strFalse), (AnnotationRebootInProgress, strFalse)], false⟩]) = 2 := by
  refine ⟨by decide, by decide, by decide, by decide⟩

end Fluo
